import Mathlib

/-!
Verification of the RocketryVT Ground-Station firmware (`src/pico/src`)
against its natural-language specification.

Shallow embedding conventions:
* C `double`/`float` values (coordinates, angles, link metrics) are
  modelled as `ℚ`.
* FreeRTOS queues are modelled as explicit lists; `xQueueSend` with a
  zero timeout is a total function returning the new queue state and a
  success flag; `xQueueOverwrite` on a depth-1 queue is modelled as the
  written value; `xQueuePeek` results are `Option` inputs to a step
  function.
* Each task's loop body becomes a step function
  `state → input → state × effects`; a run is the fold of the step over
  an input trace.
-/

namespace GroundStation

/-- Flight state enumeration decoded from telemetry
(`lora_task.cpp`, `state_name`). -/
inductive FlightState where
  | GROUND_IDLE | ARMED | POWERED_ASCENT | COAST_ASCENT | APOGEE
  | DESCENT_DROGUE | DESCENT_MAIN | LANDED | FAULT | UNKNOWN
deriving DecidableEq, Repr

/-- Decoded SIGMA telemetry frame (`SigmaLoRaData` fields as used in
`lora_task.cpp` lines 164-220): boot timestamp, flight state, satellite
count, status-flag bitfield, coordinates, two altitudes, speed, and a
four-component quaternion. -/
structure SigmaLoRaData where
  boot_ms    : ℕ
  state      : FlightState
  satellites : ℕ
  flags      : ℕ
  lat        : ℚ
  lon        : ℚ
  alt_gps_m  : ℚ
  alt_baro_m : ℚ
  speed_ms   : ℚ
  q0         : ℚ
  q1         : ℚ
  q2         : ℚ
  q3         : ℚ
deriving DecidableEq, Repr

/-- Modelled from the spec: `SIGMA_FLAG_GPS_VALID` is defined in the
companion module `SIGMA.hpp`, which is not among the sources; the spec
only says the bitfield contains "a coordinates-valid bit".  The exact
bit position does not affect any claim, so it is modelled as bit 0. -/
def SIGMA_FLAG_GPS_VALID : ℕ := 1

/-- Raw reception metadata of one LoRa packet (`LoRaPacket` fields used
by `lora_task.cpp`: byte count, RSSI, SNR). -/
structure PktMeta where
  len  : ℕ
  rssi : ℚ
  snr  : ℚ
deriving DecidableEq, Repr

/-- Struct `LocationMsg` (`shared.hpp` lines 75-79): payload of the two
depth-1 overwrite location queues. -/
structure LocationMsg where
  lat   : ℚ
  lon   : ℚ
  alt_m : ℚ
deriving DecidableEq, Repr

/-- Structured content of an `MqttMessage` payload.  In the C code the
payload is the JSON rendering of exactly these fields
(`lora_task.cpp` lines 189-208, `gps_task.cpp` lines 76-78); the
textual formatting is abstracted, the field content is kept. -/
inductive MqttPayload where
  | lora (d : SigmaLoRaData) (rssi snr : ℚ)
  | gps (lat lon alt : ℚ) (sats : ℤ)
deriving DecidableEq, Repr

/-- Struct `MqttMessage` (`shared.hpp` lines 30-33): fixed topic string plus a
bounded payload. -/
structure MqttMessage where
  topic   : String
  payload : MqttPayload
deriving DecidableEq, Repr

/-- Log records emitted by the LoRa listening loop
(`lora_task.cpp` lines 164-231), with the data each carries. -/
inductive LoraLog where
  | csvRow (d : SigmaLoRaData) (rssi snr : ℚ)
  | badFrame (len : ℕ) (rssi snr : ℚ)
  | readError (code : ℤ)
deriving DecidableEq, Repr

/-- Effects of handling one received packet in the LoRa listening loop. -/
structure LoraEffects where
  logs      : List LoraLog
  mqtt      : List MqttMessage
  rocketLoc : Option LocationMsg
deriving DecidableEq, Repr

/-- One iteration of the `Listening` branch of `lora_task`
(`lora_task.cpp` lines 158-231), given that `readPacket` returned
`LORA_OK`.  The SIGMA deserialize outcome is passed as a parameter
(`none` = framing/CRC check failed), per the spec's opaque
pass/fail contract for the companion module:
* on decode success: emit the CSV log row; if the publisher is
  connected, enqueue one `rocket/lora` message with the decoded fields
  and the link metrics; if the GPS-valid flag is set, overwrite the
  rocket location queue with (lat, lon, alt_gps);
* on decode failure: log only the raw reception metadata. -/
def loraHandlePacket (connected : Bool) (pkt : PktMeta)
    (decoded : Option SigmaLoRaData) : LoraEffects :=
  match decoded with
  | some d =>
      { logs := [LoraLog.csvRow d pkt.rssi pkt.snr]
        mqtt :=
          if connected then
            [{ topic := "rocket/lora"
               payload := MqttPayload.lora d pkt.rssi pkt.snr }]
          else []
        rocketLoc :=
          if d.flags &&& SIGMA_FLAG_GPS_VALID ≠ 0 then
            some { lat := d.lat, lon := d.lon, alt_m := d.alt_gps_m }
          else none }
  | none =>
      { logs := [LoraLog.badFrame pkt.len pkt.rssi pkt.snr]
        mqtt := []
        rocketLoc := none }

/-- A concrete decoded frame used as test input (coordinates-valid flag
set, the end-to-end scenario values of spec §8). -/
def exampleFrame : SigmaLoRaData :=
  { boot_ms := 123456
    state := FlightState.COAST_ASCENT
    satellites := 9
    flags := SIGMA_FLAG_GPS_VALID
    lat := 34.0522
    lon := -118.2437
    alt_gps_m := 1500.0
    alt_baro_m := 1498.5
    speed_ms := 42.5
    q0 := 1, q1 := 0, q2 := 0, q3 := 0 }

/-- A concrete reception-metadata record used as test input. -/
def examplePkt : PktMeta := { len := 48, rssi := -80, snr := 7.5 }

/-! ## GPS Fix Tracker (`gps_task.cpp`) -/

/-- Struct `gps::Coordinate` as used by `gps_task.cpp` (fields read from the
parser: latitude, longitude, altitude, satellite count). -/
structure Coordinate where
  latitude   : ℚ
  longitude  : ℚ
  altitude   : ℚ
  satellites : ℤ
deriving DecidableEq, Repr

/-- The two depth-1 overwrite location queues of `shared.hpp`
(`g_gs_location_q`, `g_rocket_location_q`). -/
inductive QueueTarget where
  | gsLocation
  | rocketLocation
deriving DecidableEq, Repr

/-- Effects observable from one `gps_task` poll cycle: the two
transition log lines, a location-queue overwrite, or an outbound
publish attempt (tagged with the tick at which it happens). -/
inductive GpsEvent where
  | fixAcquired (c : Coordinate)
  | fixLost
  | locOverwrite (target : QueueTarget) (l : LocationMsg)
  | publishAt (now : ℕ) (m : MqttMessage)
deriving DecidableEq, Repr

/-- Persistent loop state of `gps_task` (lines 30-31): the `had_fix`
transition latch and the `last_pub` rate-limit timestamp. -/
structure GpsState where
  had_fix  : Bool
  last_pub : ℕ
deriving DecidableEq, Repr

/-- Initial `gps_task` state: `last_pub = 0`, `had_fix = false`. -/
def gpsInit : GpsState := { had_fix := false, last_pub := 0 }

/-- What one poll cycle observes from the parser: whether a fix is
held, the current coordinate, and the current tick count. -/
structure GpsPoll where
  hasFix : Bool
  coord  : Coordinate
  now    : ℕ
deriving DecidableEq, Repr

/-- Type `TickType_t` is a 32-bit unsigned counter. -/
def TICK_WRAP : ℕ := 2 ^ 32

/-- Unsigned 32-bit subtraction `a - b` as computed on `TickType_t`
values (`now - last_pub` in `gps_task.cpp` line 72). -/
def tickSub (a b : ℕ) : ℕ :=
  (a % TICK_WRAP + TICK_WRAP - b % TICK_WRAP) % TICK_WRAP

/-- Modelled from the spec: `FreeRTOSConfig.h` is not among the
sources, so the tick rate is unknown; ticks are modelled in
milliseconds (`configTICK_RATE_HZ = 1000`), making `pdMS_TO_TICKS`
the identity.  The spec states the publish interval as 1000 ms. -/
def pdMS_TO_TICKS (ms : ℕ) : ℕ := ms

/-- Constant `GPS_PUB_MS` (`gps_task.cpp` line 12): publish rate cap in ms. -/
def GPS_PUB_MS : ℕ := 1000

/-- The publish interval in ticks. -/
def GPS_PUB_TICKS : ℕ := pdMS_TO_TICKS GPS_PUB_MS

/-- One poll cycle of `gps_task` (lines 58-89), after the UART drain:
* fix held: log "fix acquired" once on the false→true transition,
  overwrite the ground location queue with the current coordinate on
  every poll, and attempt one `rocket/gps` publish only when at least
  `GPS_PUB_MS` has elapsed since `last_pub` (updating `last_pub`);
* fix not held: log "fix lost" once on the true→false transition,
  otherwise do nothing. -/
def gpsStep (s : GpsState) (p : GpsPoll) : GpsState × List GpsEvent :=
  if p.hasFix then
    let acq : Bool := !s.had_fix
    let acqLogs : List GpsEvent :=
      if acq then [GpsEvent.fixAcquired p.coord] else []
    let locEvs : List GpsEvent :=
      [GpsEvent.locOverwrite QueueTarget.gsLocation
        { lat := p.coord.latitude, lon := p.coord.longitude
          alt_m := p.coord.altitude }]
    if GPS_PUB_TICKS ≤ tickSub p.now s.last_pub then
      ({ had_fix := true, last_pub := p.now },
       acqLogs ++ locEvs ++
         [GpsEvent.publishAt p.now
           { topic := "rocket/gps"
             payload := MqttPayload.gps p.coord.latitude p.coord.longitude
               p.coord.altitude p.coord.satellites }])
    else
      ({ had_fix := true, last_pub := s.last_pub }, acqLogs ++ locEvs)
  else if s.had_fix then
    ({ had_fix := false, last_pub := s.last_pub }, [GpsEvent.fixLost])
  else
    (s, [])

/-- Run of `gps_task` over a trace of poll observations. -/
def gpsRun (s : GpsState) : List GpsPoll → GpsState × List GpsEvent
  | [] => (s, [])
  | p :: ps =>
      let step := gpsStep s p
      let rest := gpsRun step.1 ps
      (rest.1, step.2 ++ rest.2)

/-- Recognizer for "fix acquired" log events. -/
def isAcquired : GpsEvent → Bool
  | GpsEvent.fixAcquired _ => true
  | _ => false

/-- Recognizer for "fix lost" log events. -/
def isLost : GpsEvent → Bool
  | GpsEvent.fixLost => true
  | _ => false

/-- Number of false→true transitions in a fix-reading sequence, given
the latch value before the first reading. -/
def risingEdges (had : Bool) : List Bool → ℕ
  | [] => 0
  | b :: bs => (if b && !had then 1 else 0) + risingEdges b bs

/-- Number of true→false transitions in a fix-reading sequence, given
the latch value before the first reading. -/
def fallingEdges (had : Bool) : List Bool → ℕ
  | [] => 0
  | b :: bs => (if !b && had then 1 else 0) + fallingEdges b bs

/-- Ticks at which the trace attempts an outbound publish. -/
def publishTimes (evs : List GpsEvent) : List ℕ :=
  evs.filterMap fun e => match e with
    | GpsEvent.publishAt t _ => some t
    | _ => none

/-- Publish attempts (tick and full message) appearing in a trace. -/
def publishEvents (evs : List GpsEvent) : List (ℕ × MqttMessage) :=
  evs.filterMap fun e => match e with
    | GpsEvent.publishAt t m => some (t, m)
    | _ => none

/-- Overwrites of the ground location queue appearing in a trace. -/
def gsLocWrites (evs : List GpsEvent) : List LocationMsg :=
  evs.filterMap fun e => match e with
    | GpsEvent.locOverwrite QueueTarget.gsLocation l => some l
    | _ => none

/-- Overwrites of the rocket location queue appearing in a trace. -/
def rocketLocWrites (evs : List GpsEvent) : List LocationMsg :=
  evs.filterMap fun e => match e with
    | GpsEvent.locOverwrite QueueTarget.rocketLocation l => some l
    | _ => none

/-- A concrete GPS coordinate used as test input. -/
def c7Coord : Coordinate :=
  { latitude := 34, longitude := -118, altitude := 1500, satellites := 8 }

/-- A concrete five-poll trace with a held fix: ticks 0, 500, 1000,
1500, 2100. -/
def c7Polls : List GpsPoll :=
  [ { hasFix := true, coord := c7Coord, now := 0 },
    { hasFix := true, coord := c7Coord, now := 500 },
    { hasFix := true, coord := c7Coord, now := 1000 },
    { hasFix := true, coord := c7Coord, now := 1500 },
    { hasFix := true, coord := c7Coord, now := 2100 } ]

/-! ## Network Publisher (`mqtt_task.cpp`) -/

/-- Observable steps of the Network Publisher task: reading the
ConnectionState flag after the handshake grace period, and publishing
one message. -/
inductive MqttObs where
  | flagRead (b : Bool)
  | publish (m : MqttMessage)
deriving DecidableEq, Repr

/-- Model of the `mqtt_task` outer loop (`mqtt_task.cpp` lines 57-98).
Each element of `attempts` is one connection attempt: the handshake
outcome that `connection_cb` stored in `s_mqtt_connected` (the task
reads it after the 2 s grace delay), paired with the messages
producers enqueued on `g_mqtt_queue` since the previous attempt.
`pending` holds messages already waiting in the queue.  On a failed
handshake the task only logs and retries after the backoff: queued
messages stay where they are.  On a successful handshake the drain
loop (lines 82-94) receives from the queue in FIFO order and publishes
each message; the session's queued messages are drained in enqueue
order.  Publishing happens nowhere else in the task. -/
def mqttRun : List (Bool × List MqttMessage) → List MqttMessage →
    List MqttObs
  | [], _ => []
  | (outcome, newMsgs) :: rest, pending =>
      let queued := pending ++ newMsgs
      MqttObs.flagRead outcome ::
        (if outcome then
          queued.map MqttObs.publish ++ mqttRun rest []
        else
          mqttRun rest queued)

/-- The publishes occurring before the first `flagRead true`
observation of a trace. -/
def pubsBeforeConnected : List MqttObs → List MqttMessage
  | [] => []
  | MqttObs.flagRead true :: _ => []
  | MqttObs.flagRead false :: rest => pubsBeforeConnected rest
  | MqttObs.publish m :: rest => m :: pubsBeforeConnected rest

/-! ## Antenna Tracking Controller (`servo_task.cpp`) -/

/-- Constant `PULSE_MIN` (`servo_task.cpp` line 16): 1 ms pulse. -/
def PULSE_MIN : ℕ := 1000

/-- Constant `PULSE_CENTER` (`servo_task.cpp` line 17): 1.5 ms pulse. -/
def PULSE_CENTER : ℕ := 1500

/-- Constant `PULSE_MAX` (`servo_task.cpp` line 18): 2 ms pulse. -/
def PULSE_MAX : ℕ := 2000

/-- The two sequential clamping comparisons of `angle_to_counts`
(`servo_task.cpp` lines 24-25): `if (deg < deg_min) deg = deg_min;`
then `if (deg > deg_max) deg = deg_max;`. -/
def clampQ (deg deg_min deg_max : ℚ) : ℚ :=
  let d1 := if deg < deg_min then deg_min else deg
  if d1 > deg_max then deg_max else d1

/-- Function `angle_to_counts` (`servo_task.cpp` lines 22-28): clamp the angle
into `[deg_min, deg_max]` with the two sequential comparisons of
`clampQ`, interpolate linearly into `[PULSE_MIN, PULSE_MAX]`, and
truncate to an integer count.  Angles are modelled as `ℚ`; the C
`static_cast<uint16_t>` of the non-negative in-range result is integer
truncation, i.e. `Int.floor`. -/
def angle_to_counts (deg deg_min deg_max : ℚ) : ℕ :=
  let t := (clampQ deg deg_min deg_max - deg_min) / (deg_max - deg_min)
  (⌊(PULSE_MIN : ℚ) + t * ((PULSE_MAX : ℚ) - (PULSE_MIN : ℚ))⌋).toNat

/-- Azimuth fold (`servo_task.cpp` line 76): a full-circle bearing
beyond the 0-180 servo range is reflected back into range. -/
def normalizeAz (az : ℚ) : ℚ := if az > 180 then 360 - az else az

/-- Actuator command of one control tick: either the neutral/center
fail-safe hold (both channels at `PULSE_CENTER`) or a tracking command
with the two computed pulse counts. -/
inductive ServoCmd where
  | center
  | track (az_counts el_counts : ℕ)
deriving DecidableEq, Repr

/-- Persistent loop state of `servo_task` (lines 57-60): last-seen
samples and the sticky presence flags. -/
structure ServoState where
  have_gs  : Bool
  have_rkt : Bool
  gs       : LocationMsg
  rkt      : LocationMsg
deriving DecidableEq, Repr

/-- Initial `servo_task` state: zeroed samples, both flags false. -/
def servoInit : ServoState :=
  { have_gs := false, have_rkt := false
    gs := { lat := 0, lon := 0, alt_m := 0 }
    rkt := { lat := 0, lon := 0, alt_m := 0 } }

/-- One tick of `servo_task` (lines 62-90), parameterized by the
external geodetic math (`calculateAzimuth` / `calculateElevation` of
the collaborator `GroundStationMath`, not among the sources).  The
tick input is the pair of `xQueuePeek` results on the two location
queues (`none` = nothing yielded).  A successful peek overwrites the
local variable and latches the presence flag; the flags are never
cleared.  With both flags set the tick computes azimuth and elevation
between the last-seen samples, folds the azimuth, and maps both angles
to pulse counts (azimuth axis range 0-180, elevation axis range 0-90);
otherwise it commands the center hold. -/
def servoStep (calcAz calcEl : LocationMsg → LocationMsg → ℚ)
    (s : ServoState) (peek : Option LocationMsg × Option LocationMsg) :
    ServoState × ServoCmd :=
  let gs' := peek.1.getD s.gs
  let have_gs' := s.have_gs || peek.1.isSome
  let rkt' := peek.2.getD s.rkt
  let have_rkt' := s.have_rkt || peek.2.isSome
  let s' : ServoState :=
    { have_gs := have_gs', have_rkt := have_rkt', gs := gs', rkt := rkt' }
  if have_gs' && have_rkt' then
    (s', ServoCmd.track
      (angle_to_counts (normalizeAz (calcAz gs' rkt')) 0 180)
      (angle_to_counts (calcEl gs' rkt') 0 90))
  else
    (s', ServoCmd.center)

/-- Run of `servo_task` over a trace of peek results, collecting the
command written on every tick. -/
def servoRun (calcAz calcEl : LocationMsg → LocationMsg → ℚ)
    (s : ServoState) :
    List (Option LocationMsg × Option LocationMsg) →
    ServoState × List ServoCmd
  | [] => (s, [])
  | i :: is =>
      let step := servoStep calcAz calcEl s i
      let rest := servoRun calcAz calcEl step.1 is
      (rest.1, step.2 :: rest.2)

/-! ## Diagnostic Log Sink (`usb_task.cpp`, `shared.hpp`) -/

/-- Struct `LogMessage` (`shared.hpp` lines 13-15): one bounded formatted
text line (`char buf[256]`). -/
structure LogMessage where
  buf : String
deriving DecidableEq, Repr

/-- Constant `LOG_QUEUE_DEPTH` (`shared.hpp` line 17). -/
def LOG_QUEUE_DEPTH : ℕ := 64

/-- A bounded FIFO FreeRTOS queue: fixed capacity plus current items,
oldest first. -/
structure BoundedQueue (α : Type) where
  cap   : ℕ
  items : List α
deriving DecidableEq, Repr

/-- Function `xQueueSend` with a zero timeout: append if there is room and
report success, otherwise return the queue unchanged and report
failure.  With a zero timeout it never waits, so the caller returns
immediately in every channel state. -/
def xQueueSend0 {α : Type} (q : BoundedQueue α) (m : α) :
    BoundedQueue α × Bool :=
  if q.items.length < q.cap then
    ({ q with items := q.items ++ [m] }, true)
  else
    (q, false)

/-- Function `log_print` (`usb_task.cpp` lines 15-23): format the record and
enqueue it on the log queue with a zero timeout — non-blocking, the
record is silently dropped when the queue is full. -/
def log_print (q : BoundedQueue LogMessage) (m : LogMessage) :
    BoundedQueue LogMessage × Bool :=
  xQueueSend0 q m

/-- Send a list of records in order, each with a zero timeout,
counting the dropped ones. -/
def sendAll {α : Type} (q : BoundedQueue α) : List α → BoundedQueue α × ℕ
  | [] => (q, 0)
  | m :: ms =>
      let s := xQueueSend0 q m
      let rest := sendAll s.1 ms
      (rest.1, (if s.2 then 0 else 1) + rest.2)

/-! ## Theorems -/

theorem gpsStep_had_fix (s : GpsState) (p : GpsPoll) :
    (gpsStep s p).1.had_fix = p.hasFix := by
  cases hp : p.hasFix with
  | false => cases hh : s.had_fix <;> simp [gpsStep, hp, hh]
  | true =>
      simp only [gpsStep, hp, if_true]
      split <;> rfl

theorem gpsStep_countP_acquired (s : GpsState) (p : GpsPoll) :
    (gpsStep s p).2.countP isAcquired =
      if p.hasFix && !s.had_fix then 1 else 0 := by
  cases hp : p.hasFix with
  | false => cases hh : s.had_fix <;> simp [gpsStep, hp, hh, isAcquired]
  | true =>
      cases hh : s.had_fix <;>
        · simp only [gpsStep, hp, hh, if_true]
          split <;> simp [isAcquired]

theorem gpsStep_countP_lost (s : GpsState) (p : GpsPoll) :
    (gpsStep s p).2.countP isLost =
      if !p.hasFix && s.had_fix then 1 else 0 := by
  cases hp : p.hasFix with
  | false => cases hh : s.had_fix <;> simp [gpsStep, hp, hh, isLost]
  | true =>
      cases hh : s.had_fix <;>
        · simp only [gpsStep, hp, hh, if_true]
          split <;> simp [isLost]

theorem gpsRun_countP_acquired (polls : List GpsPoll) (s : GpsState) :
    ((gpsRun s polls).2.countP isAcquired) =
      risingEdges s.had_fix (polls.map GpsPoll.hasFix) := by
  induction polls generalizing s with
  | nil => simp [gpsRun, risingEdges]
  | cons p ps ih =>
      simp only [gpsRun, List.map_cons, risingEdges, List.countP_append]
      rw [gpsStep_countP_acquired, ih, gpsStep_had_fix]

theorem gpsRun_countP_lost (polls : List GpsPoll) (s : GpsState) :
    ((gpsRun s polls).2.countP isLost) =
      fallingEdges s.had_fix (polls.map GpsPoll.hasFix) := by
  induction polls generalizing s with
  | nil => simp [gpsRun, fallingEdges]
  | cons p ps ih =>
      simp only [gpsRun, List.map_cons, fallingEdges, List.countP_append]
      rw [gpsStep_countP_lost, ih, gpsStep_had_fix]

theorem tickSub_of_le {a b : ℕ} (hba : b ≤ a) (ha : a < TICK_WRAP) :
    tickSub a b = a - b := by
  have hb : b < TICK_WRAP := lt_of_le_of_lt hba ha
  unfold tickSub
  rw [Nat.mod_eq_of_lt ha, Nat.mod_eq_of_lt hb]
  have h1 : a + TICK_WRAP - b = TICK_WRAP + (a - b) := by omega
  rw [h1, Nat.add_mod_left, Nat.mod_eq_of_lt (by omega)]

theorem chain_le_drop {a b : ℕ} {l : List ℕ}
    (h : List.Chain' (· ≤ ·) (a :: b :: l)) :
    List.Chain' (· ≤ ·) (a :: l) := by
  rcases List.chain'_cons.mp h with ⟨hab, h2⟩
  cases l with
  | nil => simp
  | cons c l' =>
      rcases List.chain'_cons.mp h2 with ⟨hbc, h3⟩
      exact List.chain'_cons.mpr ⟨le_trans hab hbc, h3⟩

theorem gpsRun_cons (s : GpsState) (p : GpsPoll) (ps : List GpsPoll) :
    gpsRun s (p :: ps) =
      ((gpsRun (gpsStep s p).1 ps).1,
        (gpsStep s p).2 ++ (gpsRun (gpsStep s p).1 ps).2) := rfl

theorem gpsStep_publishTimes (s : GpsState) (p : GpsPoll) :
    publishTimes (gpsStep s p).2 =
      if p.hasFix = true ∧ GPS_PUB_TICKS ≤ tickSub p.now s.last_pub then
        [p.now]
      else [] := by
  cases hp : p.hasFix with
  | false => cases hh : s.had_fix <;> simp [gpsStep, hp, hh, publishTimes]
  | true =>
      by_cases hpub : GPS_PUB_TICKS ≤ tickSub p.now s.last_pub <;>
        cases hh : s.had_fix <;>
          simp [gpsStep, hp, hh, hpub, publishTimes]

theorem gpsStep_fst (s : GpsState) (p : GpsPoll) (hp : p.hasFix = true) :
    (gpsStep s p).1 =
      if GPS_PUB_TICKS ≤ tickSub p.now s.last_pub then
        { had_fix := true, last_pub := p.now }
      else
        { had_fix := true, last_pub := s.last_pub } := by
  by_cases hpub : GPS_PUB_TICKS ≤ tickSub p.now s.last_pub <;>
    simp [gpsStep, hp, hpub]

theorem gpsStep_fst_nofix (s : GpsState) (p : GpsPoll)
    (hp : p.hasFix = false) :
    (gpsStep s p).1.last_pub = s.last_pub := by
  cases hh : s.had_fix <;> simp [gpsStep, hp, hh]

theorem gpsRun_publish_gap (polls : List GpsPoll) : ∀ (s : GpsState),
    List.Chain' (· ≤ ·) (s.last_pub :: polls.map GpsPoll.now) →
    (∀ p ∈ polls, p.now < TICK_WRAP) →
    s.last_pub < TICK_WRAP →
    (∀ t ∈ publishTimes (gpsRun s polls).2, s.last_pub + GPS_PUB_TICKS ≤ t) ∧
    List.Pairwise (fun a b => a + GPS_PUB_TICKS ≤ b)
      (publishTimes (gpsRun s polls).2) := by
  induction polls with
  | nil =>
      intro s _ _ _
      simp [gpsRun, publishTimes]
  | cons p ps ih =>
      intro s hchain hbound hs
      have hb : s.last_pub ≤ p.now :=
        (List.chain'_cons.mp (by simpa using hchain)).1
      have hchain2 : List.Chain' (· ≤ ·) (p.now :: ps.map GpsPoll.now) :=
        (List.chain'_cons.mp (by simpa using hchain)).2
      have hpW : p.now < TICK_WRAP := hbound p (List.mem_cons_self _ _)
      have hboundps : ∀ q ∈ ps, q.now < TICK_WRAP := fun q hq =>
        hbound q (List.mem_cons_of_mem _ hq)
      have hsplit : publishTimes (gpsRun s (p :: ps)).2 =
          publishTimes (gpsStep s p).2 ++
            publishTimes (gpsRun (gpsStep s p).1 ps).2 := by
        rw [gpsRun_cons]
        simp [publishTimes]
      cases hp : p.hasFix with
      | false =>
          have hpts : publishTimes (gpsStep s p).2 = [] := by
            rw [gpsStep_publishTimes]
            simp [hp]
          have hnofix := gpsStep_fst_nofix s p hp
          have hrec := ih (gpsStep s p).1
            (by rw [hnofix]; exact chain_le_drop (by simpa using hchain))
            hboundps (by rw [hnofix]; exact hs)
          rw [hnofix] at hrec
          rw [hsplit, hpts, List.nil_append]
          exact hrec
      | true =>
          by_cases hpub : GPS_PUB_TICKS ≤ tickSub p.now s.last_pub
          · have hfst := gpsStep_fst s p hp
            rw [if_pos hpub] at hfst
            have hlp : (gpsStep s p).1.last_pub = p.now := by rw [hfst]
            have hpts : publishTimes (gpsStep s p).2 = [p.now] := by
              rw [gpsStep_publishTimes]
              simp [hp, hpub]
            have hgap : s.last_pub + GPS_PUB_TICKS ≤ p.now := by
              rw [tickSub_of_le hb hpW] at hpub
              omega
            have hrec := ih (gpsStep s p).1 (by rw [hlp]; exact hchain2)
              hboundps (by rw [hlp]; exact hpW)
            rw [hlp] at hrec
            rw [hsplit, hpts, List.singleton_append]
            constructor
            · intro t ht
              rcases List.mem_cons.mp ht with rfl | h
              · exact hgap
              · have := hrec.1 t h
                omega
            · exact List.pairwise_cons.mpr ⟨fun t ht => hrec.1 t ht, hrec.2⟩
          · have hfst := gpsStep_fst s p hp
            rw [if_neg hpub] at hfst
            have hlp : (gpsStep s p).1.last_pub = s.last_pub := by rw [hfst]
            have hpts : publishTimes (gpsStep s p).2 = [] := by
              rw [gpsStep_publishTimes]
              simp [hp, hpub]
            have hrec := ih (gpsStep s p).1
              (by rw [hlp]; exact chain_le_drop (by simpa using hchain))
              hboundps (by rw [hlp]; exact hs)
            rw [hlp] at hrec
            rw [hsplit, hpts, List.nil_append]
            exact hrec

theorem gpsStep_gsLocWrites (s : GpsState) (p : GpsPoll) :
    gsLocWrites (gpsStep s p).2 =
      if p.hasFix = true then
        [{ lat := p.coord.latitude, lon := p.coord.longitude
           alt_m := p.coord.altitude }]
      else [] := by
  cases hp : p.hasFix with
  | false => cases hh : s.had_fix <;> simp [gpsStep, hp, hh, gsLocWrites]
  | true =>
      by_cases hpub : GPS_PUB_TICKS ≤ tickSub p.now s.last_pub <;>
        cases hh : s.had_fix <;>
          simp [gpsStep, hp, hh, hpub, gsLocWrites]

theorem gpsStep_publishEvents (s : GpsState) (p : GpsPoll) :
    publishEvents (gpsStep s p).2 =
      if p.hasFix = true ∧ GPS_PUB_TICKS ≤ tickSub p.now s.last_pub then
        [(p.now,
          { topic := "rocket/gps"
            payload := MqttPayload.gps p.coord.latitude p.coord.longitude
              p.coord.altitude p.coord.satellites })]
      else [] := by
  cases hp : p.hasFix with
  | false => cases hh : s.had_fix <;> simp [gpsStep, hp, hh, publishEvents]
  | true =>
      by_cases hpub : GPS_PUB_TICKS ≤ tickSub p.now s.last_pub <;>
        cases hh : s.had_fix <;>
          simp [gpsStep, hp, hh, hpub, publishEvents]

theorem gpsStep_rocketLocWrites (s : GpsState) (p : GpsPoll) :
    rocketLocWrites (gpsStep s p).2 = [] := by
  cases hp : p.hasFix with
  | false => cases hh : s.had_fix <;> simp [gpsStep, hp, hh, rocketLocWrites]
  | true =>
      by_cases hpub : GPS_PUB_TICKS ≤ tickSub p.now s.last_pub <;>
        cases hh : s.had_fix <;>
          simp [gpsStep, hp, hh, hpub, rocketLocWrites]

theorem gpsRun_rocketLocWrites (polls : List GpsPoll) : ∀ (s : GpsState),
    rocketLocWrites (gpsRun s polls).2 = [] := by
  induction polls with
  | nil => intro s; simp [gpsRun, rocketLocWrites]
  | cons p ps ih =>
      intro s
      rw [gpsRun_cons]
      simp only [rocketLocWrites, List.filterMap_append]
      rw [show (gpsStep s p).2.filterMap _ = rocketLocWrites (gpsStep s p).2
            from rfl,
        gpsStep_rocketLocWrites]
      simpa [rocketLocWrites] using ih (gpsStep s p).1

/-- C1 counterexample: the claim asserts that a successfully decoded
packet yields exactly one enqueued `OutboundMessage` regardless of the
publisher's connection state.  On the code, with the publisher
disconnected, the decoded `exampleFrame` yields zero enqueued messages:
`lora_task.cpp` line 186 guards the whole construct-and-enqueue block
with `mqtt_is_connected()`. -/
theorem c1_counterexample :
    (loraHandlePacket false examplePkt (some exampleFrame)).mqtt.length ≠ 1 := by
  decide

/-- C1 (amended): for every packet whose structured decode succeeds,
the Radio Receiver constructs and enqueues exactly one
`OutboundMessage` under the fixed topic `rocket/lora` containing the
decoded fields and link metrics if and only if the publisher is
connected at that moment; while the publisher is disconnected the
message is skipped entirely, not queued. -/
theorem c1_lora_publish_gated_on_connection
    (connected : Bool) (pkt : PktMeta) (d : SigmaLoRaData) :
    (loraHandlePacket connected pkt (some d)).mqtt =
      if connected then
        [{ topic := "rocket/lora"
           payload := MqttPayload.lora d pkt.rssi pkt.snr }]
      else [] := by
  rfl

/-- C2: a received packet failing the SIGMA framing/integrity check
produces no rocket-location write and no outbound message; the only
effect is one diagnostic log record carrying exactly the raw reception
metadata (byte count, RSSI, SNR). -/
theorem c2_bad_frame_only_logs_metadata (connected : Bool) (pkt : PktMeta) :
    loraHandlePacket connected pkt none =
      { logs := [LoraLog.badFrame pkt.len pkt.rssi pkt.snr]
        mqtt := []
        rocketLoc := none } := by
  rfl

/-- C7: (a) on every poll cycle during which a fix is held — and only
then — the ground location queue is overwritten with exactly the
current coordinate; (b) every publish attempt carries the `rocket/gps`
message with the coordinate and satellite count of its poll; (c) from
the initial state, for any poll trace with nondecreasing 32-bit tick
counts, any two outbound publish attempts are separated by at least
`GPS_PUB_TICKS` (1000 ms). -/
theorem c7_fresh_location_rate_limited_publish :
    (∀ (s : GpsState) (p : GpsPoll),
        gsLocWrites (gpsStep s p).2 =
          if p.hasFix = true then
            [{ lat := p.coord.latitude, lon := p.coord.longitude
               alt_m := p.coord.altitude }]
          else []) ∧
    (∀ (s : GpsState) (p : GpsPoll),
        publishEvents (gpsStep s p).2 =
          if p.hasFix = true ∧ GPS_PUB_TICKS ≤ tickSub p.now s.last_pub then
            [(p.now,
              { topic := "rocket/gps"
                payload := MqttPayload.gps p.coord.latitude p.coord.longitude
                  p.coord.altitude p.coord.satellites })]
          else []) ∧
    (∀ polls : List GpsPoll,
        List.Chain' (· ≤ ·) (polls.map GpsPoll.now) →
        (∀ p ∈ polls, p.now < TICK_WRAP) →
        List.Pairwise (fun a b => a + GPS_PUB_TICKS ≤ b)
          (publishTimes (gpsRun gpsInit polls).2)) := by
  refine ⟨gpsStep_gsLocWrites, gpsStep_publishEvents, ?_⟩
  intro polls hchain hbound
  have h0 : List.Chain' (· ≤ ·) (gpsInit.last_pub :: polls.map GpsPoll.now) := by
    cases hl : polls.map GpsPoll.now with
    | nil => simp
    | cons a l => exact List.chain'_cons.mpr ⟨Nat.zero_le _, hl ▸ hchain⟩
  exact (gpsRun_publish_gap polls gpsInit h0 hbound (by decide)).2

/-- C7 witness: the concrete trace `c7Polls` satisfies the hypotheses,
and all its publish attempts are at least 1000 ticks apart. -/
theorem c7_witness :
    (List.Chain' (· ≤ ·) (c7Polls.map GpsPoll.now) ∧
      ∀ p ∈ c7Polls, p.now < TICK_WRAP) ∧
    List.Pairwise (fun a b => a + GPS_PUB_TICKS ≤ b)
      (publishTimes (gpsRun gpsInit c7Polls).2) :=
  ⟨⟨by norm_num [c7Polls, List.chain'_cons], by decide⟩,
    c7_fresh_location_rate_limited_publish.2.2 c7Polls
      (by norm_num [c7Polls, List.chain'_cons]) (by decide)⟩

/-- C6: over any sequence of poll cycles, the GPS Fix Tracker emits
exactly one "fix acquired" log per false→true fix transition and
exactly one "fix lost" log per true→false transition of the fix
reading, counted against the `had_fix` latch; polls on which the fix
state does not change contribute no transition log (both edge counts
are zero on an unchanged sequence). -/
theorem c6_transition_logs_once_per_edge (s : GpsState) (polls : List GpsPoll) :
    ((gpsRun s polls).2.countP isAcquired) =
        risingEdges s.had_fix (polls.map GpsPoll.hasFix) ∧
    ((gpsRun s polls).2.countP isLost) =
        fallingEdges s.had_fix (polls.map GpsPoll.hasFix) :=
  ⟨gpsRun_countP_acquired polls s, gpsRun_countP_lost polls s⟩

/-- C3: for every successfully decoded frame, the rocket location
queue is overwritten with exactly the frame's
(latitude, longitude, radio-source altitude) when the
coordinates-valid flag is set, and is not written when the flag is
clear; the GPS Fix Tracker — the only other location-producing task —
never writes that queue; and the §8 scenario frame makes the remote
sample exactly (34.0522, −118.2437, 1500.0). -/
theorem c3_remote_location_gated_on_flag :
    (∀ (connected : Bool) (pkt : PktMeta) (d : SigmaLoRaData),
        (loraHandlePacket connected pkt (some d)).rocketLoc =
          if d.flags &&& SIGMA_FLAG_GPS_VALID ≠ 0 then
            some { lat := d.lat, lon := d.lon, alt_m := d.alt_gps_m }
          else none) ∧
    (∀ (s : GpsState) (polls : List GpsPoll),
        rocketLocWrites (gpsRun s polls).2 = []) ∧
    (loraHandlePacket true examplePkt (some exampleFrame)).rocketLoc =
      some { lat := 34.0522, lon := -118.2437, alt_m := 1500.0 } := by
  refine ⟨fun _ _ _ => rfl, fun s polls => gpsRun_rocketLocWrites polls s, ?_⟩
  rfl

/-- C4: for every computed bearing `b`, if `b ∈ (180, 360]` the
normalized azimuth commanded to the actuator is `360 − b`, which lies
in `[0, 180)`; if `b ∈ [0, 180]` the commanded azimuth is `b`
unchanged. -/
theorem c4_azimuth_normalization (b : ℚ) :
    (180 < b → b ≤ 360 →
      normalizeAz b = 360 - b ∧ 0 ≤ normalizeAz b ∧ normalizeAz b < 180) ∧
    (0 ≤ b → b ≤ 180 → normalizeAz b = b) := by
  constructor
  · intro h1 h2
    rw [normalizeAz, if_pos h1]
    exact ⟨rfl, by linarith, by linarith⟩
  · intro _ h2
    rw [normalizeAz, if_neg (by linarith)]

/-- C4 witness: bearing 270 reflects to 90 and lands in `[0, 180)`,
bearing 90 passes unchanged. -/
theorem c4_witness :
    (normalizeAz 270 = 360 - 270 ∧ 0 ≤ normalizeAz 270 ∧
      normalizeAz 270 < 180) ∧
    normalizeAz 90 = 90 :=
  ⟨(c4_azimuth_normalization 270).1 (by norm_num) (by norm_num),
    (c4_azimuth_normalization 90).2 (by norm_num) (by norm_num)⟩

theorem clampQ_mono {deg_min deg_max a b : ℚ} (hab : a ≤ b) :
    clampQ a deg_min deg_max ≤ clampQ b deg_min deg_max := by
  simp only [clampQ]
  split_ifs <;> linarith

theorem clampQ_of_lt_min {deg_min deg_max a : ℚ} (h : a < deg_min)
    (hle : deg_min ≤ deg_max) : clampQ a deg_min deg_max = deg_min := by
  simp only [clampQ]
  rw [if_pos h, if_neg (not_lt.mpr hle)]

theorem clampQ_of_gt_max {deg_min deg_max a : ℚ} (h : deg_max < a)
    (hle : deg_min ≤ a) : clampQ a deg_min deg_max = deg_max := by
  simp only [clampQ]
  rw [if_neg (not_lt.mpr hle), if_pos h]

theorem clampQ_of_mem {deg_min deg_max a : ℚ} (h1 : ¬ a < deg_min)
    (h2 : ¬ deg_max < a) : clampQ a deg_min deg_max = a := by
  simp only [clampQ]
  rw [if_neg h1, if_neg h2]

/-- C5: for every axis range `[deg_min, deg_max]` (nonempty, as both
axes in the code are), `angle_to_counts` is monotone non-decreasing in
the angle, maps every input below `deg_min` to `PULSE_MIN` (1000),
every input above `deg_max` to `PULSE_MAX` (2000), and the midpoint
angle to `PULSE_CENTER` (1500). -/
theorem c5_angle_to_counts_spec (deg_min deg_max : ℚ)
    (hlt : deg_min < deg_max) :
    (∀ a b : ℚ, a ≤ b →
        angle_to_counts a deg_min deg_max ≤
          angle_to_counts b deg_min deg_max) ∧
    (∀ a : ℚ, a < deg_min →
        angle_to_counts a deg_min deg_max = PULSE_MIN) ∧
    (∀ a : ℚ, deg_max < a →
        angle_to_counts a deg_min deg_max = PULSE_MAX) ∧
    angle_to_counts ((deg_min + deg_max) / 2) deg_min deg_max =
      PULSE_CENTER := by
  have hpos : 0 < deg_max - deg_min := by linarith
  have hne : deg_max - deg_min ≠ 0 := ne_of_gt hpos
  refine ⟨?_, ?_, ?_, ?_⟩
  · intro a b hab
    simp only [angle_to_counts]
    apply Int.toNat_le_toNat
    apply Int.floor_le_floor
    have hd : clampQ a deg_min deg_max ≤ clampQ b deg_min deg_max :=
      clampQ_mono hab
    have ht : (clampQ a deg_min deg_max - deg_min) / (deg_max - deg_min) ≤
        (clampQ b deg_min deg_max - deg_min) / (deg_max - deg_min) :=
      (div_le_div_iff_of_pos_right hpos).mpr (by linarith)
    have hw : (0 : ℚ) ≤ (PULSE_MAX : ℚ) - (PULSE_MIN : ℚ) := by
      norm_num [PULSE_MIN, PULSE_MAX]
    have := mul_le_mul_of_nonneg_right ht hw
    linarith
  · intro a ha
    simp only [angle_to_counts, clampQ_of_lt_min ha hlt.le, sub_self,
      zero_div, zero_mul, add_zero]
    norm_num [PULSE_MIN]
    rfl
  · intro a ha
    have hle : deg_min ≤ a := by linarith
    simp only [angle_to_counts, clampQ_of_gt_max ha hle, div_self hne,
      one_mul]
    norm_num [PULSE_MIN, PULSE_MAX]
    rfl
  · have h1 : ¬ (deg_min + deg_max) / 2 < deg_min := by
      intro h
      linarith
    have h2 : ¬ deg_max < (deg_min + deg_max) / 2 := by
      intro h
      linarith
    have ht : (clampQ ((deg_min + deg_max) / 2) deg_min deg_max - deg_min) /
        (deg_max - deg_min) = 1 / 2 := by
      rw [clampQ_of_mem h1 h2]
      field_simp
      ring
    simp only [angle_to_counts, ht]
    norm_num [PULSE_MIN, PULSE_MAX, PULSE_CENTER]
    rfl

/-- C5 witness: for the azimuth axis range `[0, 180]`, angle −10
clamps to `PULSE_MIN`, angle 200 clamps to `PULSE_MAX`, the midpoint
angle 90 maps to `PULSE_CENTER`, and monotonicity holds between 0 and
180; additionally 0 evaluates to 1000, 90 to 1500 and 180 to 2000. -/
theorem c5_witness :
    ((0 : ℚ) < 180 ∧
      angle_to_counts (-10) 0 180 = PULSE_MIN ∧
      angle_to_counts 200 0 180 = PULSE_MAX ∧
      angle_to_counts ((0 + 180) / 2) 0 180 = PULSE_CENTER ∧
      angle_to_counts 0 0 180 ≤ angle_to_counts 180 0 180) ∧
    (angle_to_counts 0 0 180 = 1000 ∧
      angle_to_counts 90 0 180 = 1500 ∧
      angle_to_counts 180 0 180 = 2000) :=
  ⟨⟨by norm_num,
    (c5_angle_to_counts_spec 0 180 (by norm_num)).2.1 (-10) (by norm_num),
    (c5_angle_to_counts_spec 0 180 (by norm_num)).2.2.1 200 (by norm_num),
    (c5_angle_to_counts_spec 0 180 (by norm_num)).2.2.2,
    (c5_angle_to_counts_spec 0 180 (by norm_num)).1 0 180 (by norm_num)⟩,
   by norm_num [angle_to_counts, clampQ, PULSE_MIN, PULSE_MAX]; rfl,
   by norm_num [angle_to_counts, clampQ, PULSE_MIN, PULSE_MAX]; rfl,
   by norm_num [angle_to_counts, clampQ, PULSE_MIN, PULSE_MAX]; rfl⟩

theorem sendAll_cons {α : Type} (q : BoundedQueue α) (m : α) (ms : List α) :
    sendAll q (m :: ms) =
      ((sendAll (xQueueSend0 q m).1 ms).1,
        (if (xQueueSend0 q m).2 then 0 else 1) +
          (sendAll (xQueueSend0 q m).1 ms).2) := rfl

theorem sendAll_overflow {α : Type} (msgs : List α) :
    ∀ (cap : ℕ) (init : List α), init.length ≤ cap →
    init.length + msgs.length = cap + 1 →
    sendAll { cap := cap, items := init } msgs =
      ({ cap := cap, items := init ++ msgs.take (cap - init.length) }, 1) := by
  induction msgs with
  | nil =>
      intro cap init h1 h2
      exfalso
      simp at h2
      omega
  | cons m ms ih =>
      intro cap init h1 h2
      by_cases hlt : init.length < cap
      · have hsend : xQueueSend0 { cap := cap, items := init } m =
            ({ cap := cap, items := init ++ [m] }, true) := by
          simp [xQueueSend0, hlt]
        have hlen : (init ++ [m]).length = init.length + 1 := by simp
        have hrec := ih cap (init ++ [m]) (by rw [hlen]; omega)
          (by rw [hlen]; simp at h2 ⊢; omega)
        · rw [sendAll_cons, hsend]
          simp only [hrec, if_true]
          have hk : cap - init.length = (cap - (init ++ [m]).length) + 1 := by
            rw [hlen]
            omega
          rw [hk, List.take_succ_cons, List.append_assoc]
          simp
      · have hcap : init.length = cap := by omega
        have hms : ms = [] := by
          have : ms.length = 0 := by
            simp at h2
            omega
          exact List.eq_nil_of_length_eq_zero this
        subst hms
        have hsend : xQueueSend0 { cap := cap, items := init } m =
            ({ cap := cap, items := init }, false) := by
          simp [xQueueSend0, hlt]
        rw [sendAll_cons, hsend]
        have h0 : cap - init.length = 0 := by omega
        simp [sendAll, h0]

/-- C8: the log enqueue never blocks the producer — `log_print` is the
zero-timeout send, total in every channel state; on a channel already
holding its full capacity the extra record is dropped and the channel
contents are unchanged; and sending `N + 1` records into an empty
capacity-`N` log channel stores the first `N` and drops exactly one. -/
theorem c8_log_enqueue_never_blocks :
    (∀ (q : BoundedQueue LogMessage) (m : LogMessage),
        q.items.length = q.cap → log_print q m = (q, false)) ∧
    (∀ (N : ℕ) (msgs : List LogMessage), msgs.length = N + 1 →
        sendAll { cap := N, items := [] } msgs =
          ({ cap := N, items := msgs.take N }, 1)) := by
  constructor
  · intro q m hfull
    simp [log_print, xQueueSend0, hfull]
  · intro N msgs hlen
    have := sendAll_overflow msgs N [] (by simp) (by simp [hlen])
    simpa using this

/-- C8 witness: a full capacity-2 log channel drops an extra record
unchanged, and sending 3 records into an empty capacity-2 channel
stores the first 2 and drops exactly one. -/
theorem c8_witness :
    ((⟨2, [⟨"a"⟩, ⟨"b"⟩]⟩ : BoundedQueue LogMessage).items.length =
        (⟨2, [⟨"a"⟩, ⟨"b"⟩]⟩ : BoundedQueue LogMessage).cap ∧
      log_print ⟨2, [⟨"a"⟩, ⟨"b"⟩]⟩ ⟨"c"⟩ =
        ((⟨2, [⟨"a"⟩, ⟨"b"⟩]⟩ : BoundedQueue LogMessage), false)) ∧
    (([⟨"x"⟩, ⟨"y"⟩, ⟨"z"⟩] : List LogMessage).length = 2 + 1 ∧
      sendAll (⟨2, []⟩ : BoundedQueue LogMessage) [⟨"x"⟩, ⟨"y"⟩, ⟨"z"⟩] =
        (⟨2, ([⟨"x"⟩, ⟨"y"⟩, ⟨"z"⟩] : List LogMessage).take 2⟩, 1)) :=
  ⟨⟨rfl, c8_log_enqueue_never_blocks.1 ⟨2, [⟨"a"⟩, ⟨"b"⟩]⟩ ⟨"c"⟩ rfl⟩,
    ⟨rfl, c8_log_enqueue_never_blocks.2 2 [⟨"x"⟩, ⟨"y"⟩, ⟨"z"⟩] rfl⟩⟩

theorem pubsBeforeConnected_mqttRun
    (attempts : List (Bool × List MqttMessage)) :
    ∀ pending, pubsBeforeConnected (mqttRun attempts pending) = [] := by
  induction attempts with
  | nil => intro pending; rfl
  | cons a rest ih =>
      intro pending
      obtain ⟨o, newMsgs⟩ := a
      cases o <;> simp [mqttRun, pubsBeforeConnected, ih]

/-- C9: the Network Publisher never publishes while the
ConnectionState flag reads false — in every run, no publish occurs
before the first true flag observation; and in the three-failures-
then-success scenario the flag observations are false, false, false,
true in that order, with every message enqueued during the failure
windows delivered in original FIFO enqueue order only after the true
observation. -/
theorem c9_publisher_gated_fifo :
    (∀ (attempts : List (Bool × List MqttMessage))
        (pending : List MqttMessage),
        pubsBeforeConnected (mqttRun attempts pending) = []) ∧
    (∀ a b c : List MqttMessage,
        mqttRun [(false, a), (false, b), (false, c), (true, [])] [] =
          [MqttObs.flagRead false, MqttObs.flagRead false,
            MqttObs.flagRead false, MqttObs.flagRead true] ++
            (a ++ b ++ c).map MqttObs.publish) := by
  refine ⟨fun attempts pending =>
    pubsBeforeConnected_mqttRun attempts pending, ?_⟩
  intro a b c
  simp [mqttRun, List.append_assoc]

theorem servoStep_track (calcAz calcEl : LocationMsg → LocationMsg → ℚ)
    (s : ServoState) (peek : Option LocationMsg × Option LocationMsg)
    (h1 : (s.have_gs || peek.1.isSome) = true)
    (h2 : (s.have_rkt || peek.2.isSome) = true) :
    (servoStep calcAz calcEl s peek).1.have_gs = true ∧
    (servoStep calcAz calcEl s peek).1.have_rkt = true ∧
    (servoStep calcAz calcEl s peek).2 =
      ServoCmd.track
        (angle_to_counts
          (normalizeAz (calcAz (peek.1.getD s.gs) (peek.2.getD s.rkt)))
          0 180)
        (angle_to_counts (calcEl (peek.1.getD s.gs) (peek.2.getD s.rkt))
          0 90) := by
  simp [servoStep, h1, h2]

theorem servoRun_no_center (calcAz calcEl : LocationMsg → LocationMsg → ℚ)
    (ins : List (Option LocationMsg × Option LocationMsg)) :
    ∀ (s : ServoState), s.have_gs = true → s.have_rkt = true →
    ∀ cmd ∈ (servoRun calcAz calcEl s ins).2, cmd ≠ ServoCmd.center := by
  induction ins with
  | nil =>
      intro s _ _ cmd hc
      simp [servoRun] at hc
  | cons i is ih =>
      intro s hgs hrkt cmd hc
      have h1 : (s.have_gs || i.1.isSome) = true := by simp [hgs]
      have h2 : (s.have_rkt || i.2.isSome) = true := by simp [hrkt]
      have hstep := servoStep_track calcAz calcEl s i h1 h2
      rw [show servoRun calcAz calcEl s (i :: is) =
          ((servoRun calcAz calcEl (servoStep calcAz calcEl s i).1 is).1,
            (servoStep calcAz calcEl s i).2 ::
              (servoRun calcAz calcEl (servoStep calcAz calcEl s i).1 is).2)
        from rfl] at hc
      rcases List.mem_cons.mp hc with rfl | hmem
      · rw [hstep.2.2]
        simp
      · exact ih (servoStep calcAz calcEl s i).1 hstep.1 hstep.2.1 cmd hmem

/-- C10: the presence flags of the Antenna Tracking Controller are
sticky.  On any tick where each channel has yielded a value at some
point (the latched flag or a fresh peek), the tick latches both flags
and writes the tracking command computed from the most recently
observed samples — the peek result if new, else the retained value —
and from any state with both flags latched, no later tick ever
commands the neutral/center fail-safe again. -/
theorem c10_presence_flags_sticky
    (calcAz calcEl : LocationMsg → LocationMsg → ℚ) :
    (∀ (s : ServoState) (peek : Option LocationMsg × Option LocationMsg),
        (s.have_gs || peek.1.isSome) = true →
        (s.have_rkt || peek.2.isSome) = true →
        (servoStep calcAz calcEl s peek).1.have_gs = true ∧
        (servoStep calcAz calcEl s peek).1.have_rkt = true ∧
        (servoStep calcAz calcEl s peek).2 =
          ServoCmd.track
            (angle_to_counts
              (normalizeAz (calcAz (peek.1.getD s.gs) (peek.2.getD s.rkt)))
              0 180)
            (angle_to_counts
              (calcEl (peek.1.getD s.gs) (peek.2.getD s.rkt)) 0 90)) ∧
    (∀ (s : ServoState)
        (ins : List (Option LocationMsg × Option LocationMsg)),
        s.have_gs = true → s.have_rkt = true →
        ∀ cmd ∈ (servoRun calcAz calcEl s ins).2, cmd ≠ ServoCmd.center) :=
  ⟨fun s peek h1 h2 => servoStep_track calcAz calcEl s peek h1 h2,
    fun s ins hgs hrkt => servoRun_no_center calcAz calcEl ins s hgs hrkt⟩

/-- C10 witness: from a state with both samples seen, a tick whose
peeks yield nothing still produces a tracking command from the
retained samples, and a two-tick run never commands center. -/
theorem c10_witness :
    (servoStep (fun _ _ => (45 : ℚ)) (fun _ _ => (30 : ℚ))
        { have_gs := true, have_rkt := true
          gs := { lat := 0, lon := 0, alt_m := 0 }
          rkt := { lat := 1, lon := 1, alt_m := 100 } }
        (none, none)).2 =
      ServoCmd.track (angle_to_counts (normalizeAz 45) 0 180)
        (angle_to_counts 30 0 90) ∧
    ∀ cmd ∈ (servoRun (fun _ _ => (45 : ℚ)) (fun _ _ => (30 : ℚ))
        { have_gs := true, have_rkt := true
          gs := { lat := 0, lon := 0, alt_m := 0 }
          rkt := { lat := 1, lon := 1, alt_m := 100 } }
        [(none, none), (some { lat := 3, lon := 3, alt_m := 9 }, none)]).2,
      cmd ≠ ServoCmd.center :=
  ⟨((c10_presence_flags_sticky (fun _ _ => (45 : ℚ)) (fun _ _ => (30 : ℚ))).1
      { have_gs := true, have_rkt := true
        gs := { lat := 0, lon := 0, alt_m := 0 }
        rkt := { lat := 1, lon := 1, alt_m := 100 } }
      (none, none) rfl rfl).2.2,
    (c10_presence_flags_sticky (fun _ _ => (45 : ℚ)) (fun _ _ => (30 : ℚ))).2
      { have_gs := true, have_rkt := true
        gs := { lat := 0, lon := 0, alt_m := 0 }
        rkt := { lat := 1, lon := 1, alt_m := 100 } }
      [(none, none), (some { lat := 3, lon := 3, alt_m := 9 }, none)]
      rfl rfl⟩

end GroundStation
